import Mathlib

/-!
A shallow embedding of `allauth/account/managers.py` (django-allauth,
sonsandco fork): the `EmailAddressManagerMixin` / `EmailAddressManager`
operations over email-address records, and `EmailConfirmationManager`
over confirmation records.

The relational store is embedded as a `List` of records.  The ORM
primitives used by the source are embedded as:
  * `filter`  -> `List.filter`
  * `exclude` -> `List.filter` on the negated predicate
  * `get`     -> `dbGet`, returning `Except GetError _` (Django's `get`
                 raises `DoesNotExist` on zero matches and
                 `MultipleObjectsReturned` on two or more)
  * `get_or_create` -> `getOrCreate`
  * bulk `delete` on a queryset -> removing the matching rows
Time is embedded as an integer count of seconds; `timedelta(days=d)`
is `d * 86400` seconds.
-/

namespace Allauth

/-- A user object.  `tag` distinguishes distinct in-memory objects that
denote the same database row (`id`): two objects with the same `id` but
different `tag` are the "same user" for database equality but different
Python object references. -/
structure User where
  id : Nat
  is_staff : Bool := false
  tag : Nat := 0
  deriving Repr, DecidableEq

/-- An email-address row: owning user, email string, `verified` and
`primary` flags, and the site id used by the site-partitioned manager
variant. -/
structure EmailAddress where
  user : User
  email : String
  verified : Bool := false
  primary : Bool := false
  site_id : Nat := 0
  deriving Repr, DecidableEq

/-- An email-confirmation row: the owning address id and the `sent`
timestamp (seconds). -/
structure EmailConfirmation where
  email_address_id : Nat
  sent : Int
  deriving Repr, DecidableEq

/-- Errors Django's single-row `get` can raise. -/
inductive GetError where
  | doesNotExist
  | multipleObjectsReturned
  deriving Repr, DecidableEq

/-- Django `Manager.get`: zero matching rows raises `DoesNotExist`, two
or more raise `MultipleObjectsReturned`, exactly one is returned. -/
def dbGet (p : EmailAddress → Bool) (store : List EmailAddress) :
    Except GetError EmailAddress :=
  match store.filter p with
  | [] => .error .doesNotExist
  | [a] => .ok a
  | _ :: _ :: _ => .error .multipleObjectsReturned

/-- Python `str.lower()` (the normalization behind the ORM's `iexact`
lookups and the cache scan's `email.lower()`), written structurally over
the character list so that it evaluates; `strLower_eq_toLower` ties it to
the library's `String.toLower`. -/
def strLower (s : String) : String :=
  ⟨s.data.map Char.toLower⟩

/-- The row predicate for `user=user, email__iexact=email`: same owning
user (database identity) and case-insensitively equal email. -/
def iexactMatch (u : User) (email : String) (a : EmailAddress) : Bool :=
  a.user.id == u.id && strLower a.email == strLower email

/-! ## EmailAddressManagerMixin -/

/-- Python truthiness of the `MAX_EMAIL_ADDRESSES` setting: `None` and
`0` are falsy. -/
def settingTruthy : Option Nat → Bool
  | none => false
  | some n => n != 0

/-- `can_add_email(user)`: `ret = True`; if `MAX_EMAIL_ADDRESSES` is
truthy, `ret = (count of the user's addresses) < MAX_EMAIL_ADDRESSES`.
Pure: it only reads the store. -/
def can_add_email (maxEmailAddresses : Option Nat)
    (store : List EmailAddress) (u : User) : Bool :=
  if settingTruthy maxEmailAddresses then
    decide ((store.filter (fun a => a.user.id == u.id)).length <
      maxEmailAddresses.getD 0)
  else true

/-- Django `get_or_create(user=user, email__iexact=email,
defaults={"email": email})`: returns the matching row and `created=false`,
or inserts a fresh row carrying the exact-cased email and returns it with
`created=true`; `MultipleObjectsReturned` propagates. -/
def get_or_create (store : List EmailAddress) (u : User) (email : String) :
    Except GetError (EmailAddress × Bool × List EmailAddress) :=
  match dbGet (iexactMatch u email) store with
  | .ok a => .ok (a, false, store)
  | .error .doesNotExist =>
      let a : EmailAddress := { user := u, email := email }
      .ok (a, true, store ++ [a])
  | .error .multipleObjectsReturned => .error .multipleObjectsReturned

/-- `add_email(request, user, email, confirm, signup)`: get-or-create on
the case-insensitive (user, email) pair; when the row was newly created
and `confirm` holds, `send_confirmation` fires (the third component
counts those sends); returns the row and the updated store. -/
def add_email (store : List EmailAddress) (u : User) (email : String)
    (confirm : Bool) :
    Except GetError (EmailAddress × List EmailAddress × Nat) :=
  match get_or_create store u email with
  | .ok (email_address, created, store') =>
      .ok (email_address, store', if created && confirm then 1 else 0)
  | .error e => .error e

/-- `get_primary(user)`: `self.get(user=user, primary=True)`, catching
only `DoesNotExist` (mapped to `none`); `MultipleObjectsReturned`
propagates to the caller. -/
def get_primary (store : List EmailAddress) (u : User) :
    Except GetError (Option EmailAddress) :=
  match dbGet (fun a => a.user.id == u.id && a.primary) store with
  | .ok a => .ok (some a)
  | .error .doesNotExist => .ok none
  | .error .multipleObjectsReturned => .error .multipleObjectsReturned

/-- `get_users_for(email)`: the users of every verified row whose email
matches case-insensitively, materialized as a list. -/
def get_users_for (store : List EmailAddress) (email : String) :
    List User :=
  (store.filter (fun a => a.verified && strLower a.email == strLower email)).map
    (fun a => a.user)

/-- A user object together with its transient `_emailaddress_cache`
attribute (`none` = attribute absent). -/
structure UserObj where
  toUser : User
  emailaddress_cache : Option (List EmailAddress) := none
  deriving Repr, DecidableEq

/-- `fill_cache_for_user(user, addresses)`:
`user._emailaddress_cache = addresses`. -/
def fill_cache_for_user (u : UserObj) (addresses : List EmailAddress) :
    UserObj :=
  { u with emailaddress_cache := some addresses }

/-- `get_for_user(user, email)`.  The second component counts store
queries.  With an absent cache: one store `get` on the case-insensitive
(user, email) pair, overwriting the returned row's `user` attribute with
the given user object.  With a populated cache: a linear case-insensitive
scan of the cached list and no store access; a miss raises
`DoesNotExist`. -/
def get_for_user (store : List EmailAddress) (u : UserObj)
    (email : String) : Except GetError EmailAddress × Nat :=
  match u.emailaddress_cache with
  | none =>
      match dbGet (iexactMatch u.toUser email) store with
      | .ok ret => (.ok { ret with user := u.toUser }, 1)
      | .error e => (.error e, 1)
  | some addresses =>
      match addresses.find? (fun a => strLower a.email == strLower email) with
      | some a => (.ok a, 0)
      | none => (.error .doesNotExist, 0)

/-- `EmailAddressManager.get_queryset` across both module-level variants.
With `VARY_TOP_LEVEL_MODEL_BY_SITE` unset the plain manager returns the
whole store.  With it set, the manager is a `CurrentSiteManager`: unless
it has a `_get_field_name` attribute and `STAFF_ACCOUNT_MULTI_SITE` is
set, it keeps `CurrentSiteManager`'s current-site filter; otherwise it
filters on current site OR a staff owner. -/
def get_queryset (varyTopLevelModelBySite staffAccountMultiSite
    hasGetFieldName : Bool) (siteId : Nat) (store : List EmailAddress) :
    List EmailAddress :=
  if varyTopLevelModelBySite then
    if hasGetFieldName && staffAccountMultiSite then
      store.filter (fun a => a.site_id == siteId || a.user.is_staff)
    else
      store.filter (fun a => a.site_id == siteId)
  else store

/-- A sample row used to exercise the site-partitioned base query: a
staff-owned address attached to site 2. -/
def staffRow : EmailAddress :=
  { user := { id := 1, is_staff := true }, email := "s@x.com",
    site_id := 2 }

/-! ## EmailConfirmationManager -/

/-- `expired_q`: the queryset predicate `sent < now - timedelta(days=expireDays)`
(`expireDays` is `app_settings.EMAIL_CONFIRMATION_EXPIRE_DAYS`). -/
def expired_q (now : Int) (expireDays : Int) (c : EmailConfirmation) : Bool :=
  decide (c.sent < now - expireDays * 86400)

/-- `all_expired`: `self.filter(self.expired_q())`. -/
def all_expired (now expireDays : Int) (store : List EmailConfirmation) :
    List EmailConfirmation :=
  store.filter (expired_q now expireDays)

/-- `all_valid`: `self.exclude(self.expired_q())`. -/
def all_valid (now expireDays : Int) (store : List EmailConfirmation) :
    List EmailConfirmation :=
  store.filter (fun c => !(expired_q now expireDays c))

/-- `delete_expired_confirmations`: `self.all_expired().delete()` — the
store after bulk-deleting every row matched by the expired predicate. -/
def delete_expired_confirmations (now expireDays : Int)
    (store : List EmailConfirmation) : List EmailConfirmation :=
  store.filter (fun c => !(expired_q now expireDays c))

end Allauth

namespace Allauth

/-- `strLower` is the library's `String.toLower`. -/
theorem strLower_eq_toLower (s : String) : strLower s = s.toLower :=
  (String.map_eq Char.toLower s).symm

/-- C4: with a positive configured maximum M, `can_add_email` holds iff
the user's current address count is below M; with the maximum unset
(`None`) or `0` it always holds.  (`can_add_email` only reads the store;
it returns a plain boolean and no modified store.) -/
theorem can_add_email_spec (maxE : Option Nat) (store : List EmailAddress)
    (u : User) :
    (∀ m, maxE = some m → 0 < m →
      (can_add_email maxE store u = true ↔
        (store.filter (fun a => a.user.id == u.id)).length < m))
    ∧ ((maxE = none ∨ maxE = some 0) → can_add_email maxE store u = true) := by
  constructor
  · rintro m rfl hm
    have ht : settingTruthy (some m) = true := by
      simp [settingTruthy]
      omega
    simp [can_add_email, ht]
  · rintro (rfl | rfl) <;> rfl

/-- Witness for `can_add_email_spec`: maximum 2, one existing address. -/
theorem can_add_email_spec_witness :
    (can_add_email (some 2) [{ user := { id := 1 }, email := "a@x.com" }]
        { id := 1 } = true ↔
      (List.filter (fun a => a.user.id == ({ id := 1 } : User).id)
        ([{ user := { id := 1 }, email := "a@x.com" }] :
          List EmailAddress)).length < 2)
    ∧ can_add_email none [{ user := { id := 1 }, email := "a@x.com" }]
        { id := 1 } = true :=
  ⟨(can_add_email_spec (some 2) _ { id := 1 }).1 2 rfl (by decide),
    (can_add_email_spec none _ { id := 1 }).2 (Or.inl rfl)⟩

/-- C7: a user is in `get_users_for email` exactly when they own a
verified row whose email matches case-insensitively; when no row is both
verified and matching, the result is the empty list. -/
theorem get_users_for_spec (store : List EmailAddress) (email : String)
    (user : User) :
    (user ∈ get_users_for store email ↔
      ∃ a ∈ store, a.user = user ∧ a.verified = true ∧
        strLower a.email = strLower email)
    ∧ ((∀ a ∈ store, a.verified = true → strLower a.email ≠ strLower email) →
      get_users_for store email = []) := by
  constructor
  · simp only [get_users_for, List.mem_map, List.mem_filter,
      Bool.and_eq_true, beq_iff_eq]
    constructor
    · rintro ⟨a, ⟨ha, hv, he⟩, rfl⟩
      exact ⟨a, ha, rfl, hv, he⟩
    · rintro ⟨a, ha, rfl, hv, he⟩
      exact ⟨a, ⟨ha, hv, he⟩, rfl⟩
  · intro h
    simp only [get_users_for, List.map_eq_nil_iff, List.filter_eq_nil_iff]
    intro a ha
    simp only [Bool.and_eq_true, beq_iff_eq, not_and]
    intro hv
    exact h a ha hv

/-- Witness for `get_users_for_spec`: one verified matching row, one
unverified matching row owned by another user. -/
theorem get_users_for_spec_witness :
    (({ id := 1 } : User) ∈ get_users_for
        [{ user := { id := 1 }, email := "X@y.com", verified := true },
         { user := { id := 2 }, email := "x@y.com", verified := false }]
        "x@y.com" ↔
      ∃ a ∈ ([{ user := { id := 1 }, email := "X@y.com",
                verified := true },
              { user := { id := 2 }, email := "x@y.com",
                verified := false }] : List EmailAddress),
        a.user = ({ id := 1 } : User) ∧ a.verified = true ∧
          strLower a.email = strLower "x@y.com")
    ∧ get_users_for
        [{ user := { id := 2 }, email := "x@y.com", verified := false }]
        "x@y.com" = [] :=
  ⟨(get_users_for_spec _ "x@y.com" { id := 1 }).1,
    (get_users_for_spec _ "x@y.com" { id := 1 }).2 (by decide)⟩

/-- C8 counterexample: with two `primary=true` rows for the same user,
`get_primary` raises `MultipleObjectsReturned` instead of returning a
row or signaling absence, so the claim fails for that store state. -/
theorem get_primary_counterexample :
    ¬ ((∃ a, get_primary
          ([{ user := { id := 1 }, email := "p@x.com", primary := true },
            { user := { id := 1 }, email := "q@x.com", primary := true }] :
            List EmailAddress)
          { id := 1 } = .ok (some a))
      ∨ get_primary
          ([{ user := { id := 1 }, email := "p@x.com", primary := true },
            { user := { id := 1 }, email := "q@x.com", primary := true }] :
            List EmailAddress)
          { id := 1 } = .ok none) := by
  have h : get_primary
      ([{ user := { id := 1 }, email := "p@x.com", primary := true },
        { user := { id := 1 }, email := "q@x.com", primary := true }] :
        List EmailAddress)
      { id := 1 } = .error .multipleObjectsReturned := rfl
  rintro (⟨a, ha⟩ | hn)
  · rw [h] at ha
    exact Except.noConfusion ha
  · rw [h] at hn
    exact Except.noConfusion hn

/-- C8 (amended): when the user has exactly one `primary=true` row,
`get_primary` returns it; when they have none, it returns an explicit
absence; when they have two or more, it raises `MultipleObjectsReturned`
(only `DoesNotExist` is caught). -/
theorem get_primary_amended (store : List EmailAddress) (u : User) :
    (∀ a, store.filter (fun x => x.user.id == u.id && x.primary) = [a] →
      get_primary store u = .ok (some a))
    ∧ (store.filter (fun x => x.user.id == u.id && x.primary) = [] →
      get_primary store u = .ok none)
    ∧ (∀ a b rest,
      store.filter (fun x => x.user.id == u.id && x.primary) =
        a :: b :: rest →
      get_primary store u = .error .multipleObjectsReturned) := by
  refine ⟨?_, ?_, ?_⟩
  · intro a h
    unfold get_primary dbGet
    rw [h]
  · intro h
    unfold get_primary dbGet
    rw [h]
  · intro a b rest h
    unfold get_primary dbGet
    rw [h]

/-- Witness for `get_primary_amended`: one primary row among two rows,
and a store with no primary row. -/
theorem get_primary_amended_witness :
    get_primary
      [{ user := { id := 1 }, email := "p@x.com", primary := true },
       { user := { id := 1 }, email := "q@x.com", primary := false }]
      { id := 1 } =
      .ok (some { user := { id := 1 }, email := "p@x.com",
                  primary := true })
    ∧ get_primary
        [{ user := { id := 1 }, email := "q@x.com", primary := false }]
        { id := 1 } = .ok none :=
  ⟨(get_primary_amended _ { id := 1 }).1
      { user := { id := 1 }, email := "p@x.com", primary := true }
      (by decide),
    (get_primary_amended _ { id := 1 }).2.1 (by decide)⟩

/-- C1: `add_email` returns the existing row untouched, with no
confirmation send, whenever the store already holds a (unique)
case-insensitive match for (user, email) — regardless of `confirm`;
on a store with no match it inserts a row carrying the exact-cased
email and fires exactly one send iff `confirm`, and a repeated add
with a differently-cased spelling returns that same row with zero
further sends. -/
theorem add_email_spec (store : List EmailAddress) (u : User)
    (e1 e2 : String) (confirm : Bool) :
    (∀ a c, store.filter (iexactMatch u e1) = [a] →
      add_email store u e1 c = .ok (a, store, 0))
    ∧ (store.filter (iexactMatch u e1) = [] →
      ∃ a, add_email store u e1 confirm =
          .ok (a, store ++ [a], if confirm then 1 else 0)
        ∧ a.email = e1 ∧ a.user = u
        ∧ (strLower e2 = strLower e1 →
            ∀ c, add_email (store ++ [a]) u e2 c =
              .ok (a, store ++ [a], 0))) := by
  constructor
  · intro a c h
    unfold add_email get_or_create dbGet
    rw [h]
    simp
  · intro h
    refine ⟨{ user := u, email := e1 }, ?_, rfl, rfl, ?_⟩
    · unfold add_email get_or_create dbGet
      rw [h]
      cases confirm <;> rfl
    · intro he c
      have hfun : iexactMatch u e2 = iexactMatch u e1 := by
        funext x
        simp [iexactMatch, he]
      have hfilter :
          (store ++ [({ user := u, email := e1 } : EmailAddress)]).filter
            (iexactMatch u e2) = [{ user := u, email := e1 }] := by
        rw [List.filter_append, hfun, h]
        simp [iexactMatch]
      unfold add_email get_or_create dbGet
      rw [hfilter]
      simp

/-- Witness for `add_email_spec`: fresh add with `confirm=true` on an
empty store, then a re-add under different casing. -/
theorem add_email_spec_witness :
    ∃ a, add_email [] { id := 1 } "A@Example.com" true =
        .ok (a, [] ++ [a], if true then 1 else 0)
      ∧ a.email = "A@Example.com" ∧ a.user = { id := 1 }
      ∧ ∀ c, add_email ([] ++ [a]) { id := 1 } "a@example.com" c =
          .ok (a, [] ++ [a], 0) := by
  obtain ⟨a, h1, h2, h3, h4⟩ :=
    (add_email_spec [] { id := 1 } "A@Example.com" "a@example.com" true).2
      rfl
  exact ⟨a, h1, h2, h3, h4 (by decide)⟩

/-- A first element matching `p` is the unique match, when matches are
unique. -/
theorem find_unique_eq_some {α : Type} {p : α → Bool} (l : List α)
    (a : α) (ha : a ∈ l) (hpa : p a = true)
    (huniq : ∀ b ∈ l, p b = true → b = a) :
    l.find? p = some a := by
  induction l with
  | nil => cases ha
  | cons b bs ih =>
    by_cases hb : p b = true
    · have hba : b = a := huniq b (List.mem_cons_self b bs) hb
      subst hba
      simp [List.find?_cons_of_pos _ hb]
    · have ha' : a ∈ bs := by
        rcases List.mem_cons.mp ha with rfl | h'
        · exact absurd hpa hb
        · exact h'
      rw [List.find?_cons_of_neg _ (by simpa using hb)]
      exact ih ha' (fun x hx hpx => huniq x (List.mem_cons_of_mem _ hx) hpx)

/-- C5: with a populated cache, `get_for_user` performs zero store
queries; any returned row comes from the cached list and matches
case-insensitively; the (unique) matching cached row is returned; and
when nothing in the cache matches it raises `DoesNotExist` without
touching the store. -/
theorem get_for_user_cached_spec (store : List EmailAddress)
    (u : UserObj) (addrs : List EmailAddress) (email : String) :
    ((get_for_user store (fill_cache_for_user u addrs) email).2 = 0)
    ∧ (∀ a,
        (get_for_user store (fill_cache_for_user u addrs) email).1 =
          .ok a →
        a ∈ addrs ∧ strLower a.email = strLower email)
    ∧ (∀ a ∈ addrs, strLower a.email = strLower email →
        (∀ b ∈ addrs, strLower b.email = strLower email → b = a) →
        (get_for_user store (fill_cache_for_user u addrs) email).1 =
          .ok a)
    ∧ ((∀ a ∈ addrs, strLower a.email ≠ strLower email) →
        (get_for_user store (fill_cache_for_user u addrs) email).1 =
          .error .doesNotExist) := by
  have key : get_for_user store (fill_cache_for_user u addrs) email =
      match addrs.find? (fun a => strLower a.email == strLower email) with
      | some a => (.ok a, 0)
      | none => (.error .doesNotExist, 0) := rfl
  refine ⟨?_, ?_, ?_, ?_⟩
  · rw [key]
    cases addrs.find? (fun a => strLower a.email == strLower email) <;> rfl
  · intro a h
    rw [key] at h
    cases hf : addrs.find? (fun b => strLower b.email == strLower email) with
    | none =>
      rw [hf] at h
      exact Except.noConfusion h
    | some b =>
      rw [hf] at h
      have hba : b = a := by simpa using h
      subst hba
      exact ⟨List.mem_of_find?_eq_some hf,
        by simpa using List.find?_some hf⟩
  · intro a ha hmatch huniq
    rw [key, find_unique_eq_some addrs a ha (by simpa using hmatch)
      (fun b hb hp => huniq b hb (by simpa using hp))]
  · intro h
    rw [key, List.find?_eq_none.mpr (fun a ha => by simpa using h a ha)]

/-- Witness for `get_for_user_cached_spec`: the store holds a matching
row, yet the answer comes from the cache, and a cache miss raises. -/
theorem get_for_user_cached_spec_witness :
    ((get_for_user [{ user := { id := 1 }, email := "a@y.com" }]
        (fill_cache_for_user { toUser := { id := 1 } }
          [{ user := { id := 1 }, email := "A@y.com" }]) "a@y.com").2 = 0)
    ∧ (get_for_user [{ user := { id := 1 }, email := "a@y.com" }]
        (fill_cache_for_user { toUser := { id := 1 } }
          [{ user := { id := 1 }, email := "A@y.com" }]) "a@y.com").1 =
      .ok { user := { id := 1 }, email := "A@y.com" }
    ∧ (get_for_user [{ user := { id := 1 }, email := "a@y.com" }]
        (fill_cache_for_user { toUser := { id := 1 } }
          [{ user := { id := 1 }, email := "A@y.com" }]) "x@z.com").1 =
      .error .doesNotExist :=
  ⟨(get_for_user_cached_spec [{ user := { id := 1 }, email := "a@y.com" }]
      { toUser := { id := 1 } }
      [{ user := { id := 1 }, email := "A@y.com" }] "a@y.com").1,
    (get_for_user_cached_spec [{ user := { id := 1 }, email := "a@y.com" }]
      { toUser := { id := 1 } }
      [{ user := { id := 1 }, email := "A@y.com" }] "a@y.com").2.2.1
      { user := { id := 1 }, email := "A@y.com" } (by decide) (by decide)
      (by decide),
    (get_for_user_cached_spec [{ user := { id := 1 }, email := "a@y.com" }]
      { toUser := { id := 1 } }
      [{ user := { id := 1 }, email := "A@y.com" }] "x@z.com").2.2.2
      (by decide)⟩

/-- C6: with no cache attribute, `get_for_user` performs one store
query; any returned row carries the very user object that was passed
in; a unique store match is returned (with its user overwritten by the
given object) and an empty match set raises `DoesNotExist`. -/
theorem get_for_user_uncached_spec (store : List EmailAddress)
    (u : UserObj) (email : String)
    (hcache : u.emailaddress_cache = none) :
    ((get_for_user store u email).2 = 1)
    ∧ (∀ r, (get_for_user store u email).1 = .ok r → r.user = u.toUser)
    ∧ (∀ a, store.filter (iexactMatch u.toUser email) = [a] →
        (get_for_user store u email).1 =
          .ok { a with user := u.toUser })
    ∧ (store.filter (iexactMatch u.toUser email) = [] →
        (get_for_user store u email).1 = .error .doesNotExist) := by
  have key : get_for_user store u email =
      match dbGet (iexactMatch u.toUser email) store with
      | .ok ret => (.ok { ret with user := u.toUser }, 1)
      | .error e => (.error e, 1) := by
    unfold get_for_user
    rw [hcache]
  refine ⟨?_, ?_, ?_, ?_⟩
  · rw [key]
    cases dbGet (iexactMatch u.toUser email) store <;> rfl
  · intro r h
    rw [key] at h
    cases hd : dbGet (iexactMatch u.toUser email) store with
    | ok a =>
      rw [hd] at h
      have hr : ({ a with user := u.toUser } : EmailAddress) = r := by
        simpa using h
      rw [← hr]
    | error e =>
      rw [hd] at h
      exact Except.noConfusion h
  · intro a hfilter
    have hd : dbGet (iexactMatch u.toUser email) store = .ok a := by
      unfold dbGet
      rw [hfilter]
    rw [key, hd]
  · intro hfilter
    have hd : dbGet (iexactMatch u.toUser email) store =
        .error .doesNotExist := by
      unfold dbGet
      rw [hfilter]
    rw [key, hd]

/-- Witness for `get_for_user_uncached_spec`: the stored row's user
object (tag 0) is replaced by the passed-in object (tag 5) denoting the
same database user. -/
theorem get_for_user_uncached_spec_witness :
    ((get_for_user [{ user := { id := 1, tag := 0 }, email := "a@y.com" }]
        { toUser := { id := 1, tag := 5 } } "A@y.com").2 = 1)
    ∧ (get_for_user [{ user := { id := 1, tag := 0 }, email := "a@y.com" }]
        { toUser := { id := 1, tag := 5 } } "A@y.com").1 =
      .ok { user := { id := 1, tag := 5 }, email := "a@y.com" } := by
  refine ⟨(get_for_user_uncached_spec
    [{ user := { id := 1, tag := 0 }, email := "a@y.com" }]
    { toUser := { id := 1, tag := 5 } } "A@y.com" rfl).1, ?_⟩
  have h := (get_for_user_uncached_spec
    [{ user := { id := 1, tag := 0 }, email := "a@y.com" }]
    { toUser := { id := 1, tag := 5 } } "A@y.com" rfl).2.2.1
    { user := { id := 1, tag := 0 }, email := "a@y.com" } (by decide)
  exact h

/-- C10: a cache filled with the empty list counts as populated: for
every store and email, `get_for_user` raises `DoesNotExist` with zero
store queries, even when the store holds a matching row. -/
theorem get_for_user_empty_cache_spec (store : List EmailAddress)
    (u : UserObj) (email : String) :
    get_for_user store (fill_cache_for_user u []) email =
      (.error .doesNotExist, 0) := rfl

/-- C9 counterexample: with `VARY_TOP_LEVEL_MODEL_BY_SITE` enabled but
`STAFF_ACCOUNT_MULTI_SITE` disabled, a staff-owned row of another site
is filtered out, though the claim's site-OR-staff union would keep it. -/
theorem get_queryset_counterexample :
    ¬ (staffRow ∈ get_queryset true false true 1 [staffRow] ↔
      (staffRow.site_id = 1 ∨ staffRow.user.is_staff = true)) := by
  decide

/-- C9 (amended): with the vary-by-site switch enabled, the base query
is the site-OR-staff union only when the manager has the site-field
attribute and `STAFF_ACCOUNT_MULTI_SITE` is enabled; otherwise it keeps
`CurrentSiteManager`'s plain current-site restriction.  Without the
switch the base query is the whole store. -/
theorem get_queryset_amended (staffAccountMultiSite hasGetFieldName : Bool)
    (siteId : Nat) (store : List EmailAddress) (a : EmailAddress)
    (ha : a ∈ store) :
    ((hasGetFieldName && staffAccountMultiSite) = true →
      (a ∈ get_queryset true staffAccountMultiSite hasGetFieldName siteId
          store ↔
        (a.site_id = siteId ∨ a.user.is_staff = true)))
    ∧ ((hasGetFieldName && staffAccountMultiSite) = false →
      (a ∈ get_queryset true staffAccountMultiSite hasGetFieldName siteId
          store ↔
        a.site_id = siteId))
    ∧ get_queryset false staffAccountMultiSite hasGetFieldName siteId
        store = store := by
  refine ⟨?_, ?_, rfl⟩
  · intro h
    simp [get_queryset, h, List.mem_filter, ha]
  · intro h
    simp [get_queryset, h, List.mem_filter, ha]

/-- Witness for `get_queryset_amended`: a staff row of site 2 is kept
when both switches are on and dropped when only the vary switch is. -/
theorem get_queryset_amended_witness :
    (staffRow ∈ get_queryset true true true 1 [staffRow] ↔
      (staffRow.site_id = 1 ∨ staffRow.user.is_staff = true))
    ∧ (staffRow ∈ get_queryset true false true 1 [staffRow] ↔
      staffRow.site_id = 1) :=
  ⟨(get_queryset_amended true true 1 [staffRow] staffRow (by decide)).1 rfl,
    (get_queryset_amended false true 1 [staffRow] staffRow
      (by decide)).2.1 rfl⟩

/-- C2: at a fixed evaluation time, `all_expired` and `all_valid` partition
the confirmations — each row lies in exactly one of the two — relative to
the threshold `now - expireDays` days, and a row with `sent` equal to the
threshold is valid (the expired predicate is strict less-than). -/
theorem all_expired_all_valid_partition (now expireDays : Int)
    (store : List EmailConfirmation) (c : EmailConfirmation)
    (hc : c ∈ store) :
    (c ∈ all_expired now expireDays store ↔
      c ∉ all_valid now expireDays store)
    ∧ (c ∈ all_expired now expireDays store ∨
      c ∈ all_valid now expireDays store)
    ∧ (c.sent = now - expireDays * 86400 →
      c ∈ all_valid now expireDays store) := by
  unfold all_expired all_valid expired_q
  simp [List.mem_filter, hc]
  refine ⟨by omega, by omega, by omega⟩

/-- Witness for `all_expired_all_valid_partition` at a concrete store. -/
theorem all_expired_all_valid_partition_witness :
    let c : EmailConfirmation := { email_address_id := 1, sent := 100 }
    (c ∈ all_expired 100 0 [c] ↔ c ∉ all_valid 100 0 [c])
    ∧ (c ∈ all_expired 100 0 [c] ∨ c ∈ all_valid 100 0 [c])
    ∧ (c.sent = 100 - 0 * 86400 → c ∈ all_valid 100 0 [c]) :=
  all_expired_all_valid_partition 100 0 _ _ (by decide)

/-- C3: `delete_expired_confirmations` leaves exactly the rows
`all_valid` would return; every row `all_expired` would return is gone,
and every `all_valid` row survives. -/
theorem delete_expired_confirmations_spec (now expireDays : Int)
    (store : List EmailConfirmation) :
    delete_expired_confirmations now expireDays store =
      all_valid now expireDays store
    ∧ (∀ c, c ∈ all_expired now expireDays store →
        c ∉ delete_expired_confirmations now expireDays store)
    ∧ (∀ c, c ∈ all_valid now expireDays store →
        c ∈ delete_expired_confirmations now expireDays store) := by
  refine ⟨rfl, ?_, ?_⟩
  · intro c hc
    unfold all_expired at hc
    unfold delete_expired_confirmations
    simp [List.mem_filter] at hc ⊢
    intro hmem
    exact hc.2
  · intro c hc
    exact hc

/-- Witness for `delete_expired_confirmations_spec` at a concrete store. -/
theorem delete_expired_confirmations_spec_witness :
    delete_expired_confirmations 86400 1
        [{ email_address_id := 1, sent := -10 },
         { email_address_id := 2, sent := 50 }] =
      all_valid 86400 1
        [{ email_address_id := 1, sent := -10 },
         { email_address_id := 2, sent := 50 }]
    ∧ (∀ c, c ∈ all_expired 86400 1
          [{ email_address_id := 1, sent := -10 },
           { email_address_id := 2, sent := 50 }] →
        c ∉ delete_expired_confirmations 86400 1
          [{ email_address_id := 1, sent := -10 },
           { email_address_id := 2, sent := 50 }])
    ∧ (∀ c, c ∈ all_valid 86400 1
          [{ email_address_id := 1, sent := -10 },
           { email_address_id := 2, sent := 50 }] →
        c ∈ delete_expired_confirmations 86400 1
          [{ email_address_id := 1, sent := -10 },
           { email_address_id := 2, sent := 50 }]) :=
  delete_expired_confirmations_spec 86400 1 _

end Allauth
